import Mathlib

/-!
Verification of the Descript transcript proxy.

The repository contains two independent HTTP handlers:
* Variant A (`part_000`, a Next.js route): `POST` extracts a transcript from a
  Descript share page, normalizes the transcript JSON to flat text and forwards
  it to a webhook.
* Variant B (`src/app/api/transcript/route.ts`): `GET`/`POST` validates a share
  URL, extracts the transcript-JSON pointer from the page HTML and optionally
  returns the raw transcript JSON.

This file is a shallow embedding of the pure logic of both handlers:
the JSON data model, the transcript normalizer, the two meta-tag extractors
(deterministic unfoldings of the source regexes), the share-URL validator, and
the request pipelines with outbound fetches supplied as oracle inputs.

Modelling conventions:
* JavaScript strings are Lean `String`s (lists of `Char`); the JS whitespace
  class and `trim()` are modelled over the ASCII whitespace characters, which
  covers every input exercised here.
* JSON numbers are `Rat` (JSON has no NaN/Infinity, and the code only floors
  and stringifies them); `String(number)` is modelled exactly for integral
  values, which are the only ones the claims exercise.
* `fetch` results are oracle values (`FetchOutcome`); a thrown rejection is an
  `Except.error`.  `.json()` parse failure is `FetchOutcome.json = none`.
-/

/-! ## JSON data model -/

/-- A JSON value, as produced by `JSON.parse`. -/
inductive Json where
  | null
  | bool (b : Bool)
  | num (q : Rat)
  | str (s : String)
  | arr (elems : List Json)
  | obj (fields : List (String × Json))

/-- Property lookup on an object's field list.  `JSON.parse` keeps the last
duplicate key, so the rightmost binding wins. -/
def lookupLast (k : String) : List (String × Json) → Option Json
  | [] => none
  | (k1, v) :: rest =>
    match lookupLast k rest with
    | some r => some r
    | none => if k1 = k then some v else none

/-- `x[k]` for `x : unknown`: `undefined` (`none`) unless `x` is an object with
the key.  JS arrays are `typeof "object"` but carry none of the string keys the
code reads, so they behave like key-less objects here. -/
def Json.get (j : Json) (k : String) : Option Json :=
  match j with
  | .obj fields => lookupLast k fields
  | _ => none

/-- `isRecord(x)`: `typeof x === "object" && x !== null`.  True for JS objects
and arrays. -/
def isRecord : Json → Bool
  | .obj _ => true
  | .arr _ => true
  | _ => false

/-- `asArray(x)`: `Array.isArray(x) ? x : null`, argument possibly `undefined`. -/
def asArray : Option Json → Option (List Json)
  | some (.arr xs) => some xs
  | _ => none

/-- `String(value)` for a JSON number.  Exact for integral values; non-integral
values (never exercised by the claims) are rendered as `num/den` rather than
IEEE-754 decimal notation. -/
def jsNumToString (q : Rat) : String :=
  if q.den = 1 then toString q.num else toString q

/-- `coerceToString(value)`: strings pass through, numbers are stringified,
everything else (including `undefined`) is `null`. -/
def coerceToString : Option Json → Option String
  | some (.str s) => some s
  | some (.num q) => some (jsNumToString q)
  | _ => none

/-! ## String helpers shared by the normalizer and the extractors -/

/-- The ASCII part of the JS `\s` / `trim()` whitespace class. -/
def isWs (c : Char) : Bool :=
  c = ' ' || c = '\t' || c = '\n' || c = '\r' || c = '\x0b' || c = '\x0c'

/-- JS `String.prototype.trim()`: strip whitespace from both ends. -/
def jsTrim (s : String) : String :=
  String.mk (((s.data.dropWhile isWs).reverse.dropWhile isWs).reverse)

/-- JS `Array.prototype.join(sep)`. -/
def joinSep (sep : String) : List String → String
  | [] => ""
  | [x] => x
  | x :: y :: xs => x ++ sep ++ joinSep sep (y :: xs)

/-- The filter `(p) => Boolean(p && p.trim())` applied to one element:
keep a present string that is non-empty and not whitespace-only. -/
def keepTrimmed : Option String → Option String
  | some v => if v ≠ "" ∧ jsTrim v ≠ "" then some v else none
  | none => none

/-- `safeJoin(parts, separator)`: drop absent/empty/whitespace-only parts and
join the rest. -/
def safeJoin (parts : List (Option String)) (sep : String) : String :=
  joinSep sep (parts.filterMap keepTrimmed)

/-- `padStart(2, "0")`. -/
def padStart2 (s : String) : String :=
  if s.length < 2 then String.mk (List.replicate (2 - s.length) '0') ++ s else s

/-- `Math.floor` on a rational. -/
def ratFloor (q : Rat) : Int := q.num.fdiv q.den

/-! ## Transcript normalizer (`transformTranscriptJsonToText` and helpers) -/

/-- `formatTimestampSecondsToHHMMSS(seconds)`.
`Math.max(0, Math.floor(seconds))` is a non-negative integer, kept as `Nat`;
the inner `Math.floor` calls on the already-integral `h`/`m`/`s` are no-ops.
(`NaN` cannot occur: the input comes from `JSON.parse`.) -/
def formatTimestampSecondsToHHMMSS (seconds : Option Rat) : Option String :=
  match seconds with
  | none => none
  | some q =>
    let totalSeconds : Nat := (max 0 (ratFloor q)).toNat
    let h := padStart2 (toString (totalSeconds / 3600))
    let m := padStart2 (toString (totalSeconds % 3600 / 60))
    let s := padStart2 (toString (totalSeconds % 60))
    some (h ++ ":" ++ m ++ ":" ++ s)

/-- `typeof r["start"] === "number" ? r["start"] : undefined`. -/
def numProp (j : Json) (k : String) : Option Rat :=
  match j.get k with
  | some (.num q) => some q
  | _ => none

/-- The line-assembly block shared verbatim by the segments, monologues and
paragraphs branches:
`linePrefix = safeJoin([ts ? "[" + ts + "]" : undefined, speaker ? speaker + ":" : undefined])`
then `safeJoin([linePrefix, text])`. -/
def lineOf (speaker : Option String) (ts : Option String) (text : Option String) : String :=
  let tsBracket : Option String :=
    match ts with
    | some t => if t ≠ "" then some ("[" ++ t ++ "]") else none
    | none => none
  let speakerLabel : Option String :=
    match speaker with
    | some sp => if sp ≠ "" then some (sp ++ ":") else none
    | none => none
  let linePre := safeJoin [tsBracket, speakerLabel] " "
  safeJoin [some linePre, text] " "

/-- One iteration of the segments/paragraphs loop: build the line and keep it
only if truthy. -/
def buildSegmentLine (segment : Json) : Option String :=
  let speaker := coerceToString (segment.get "speaker")
  let text := coerceToString (segment.get "text")
  let ts := formatTimestampSecondsToHHMMSS (numProp segment "start")
  let line := lineOf speaker ts text
  if line ≠ "" then some line else none

/-- The monologue text: element values coerced to strings, empty/whitespace-only
ones filtered out, the rest joined with no separator. -/
def monoElementsText (els : List Json) : String :=
  joinSep "" (els.filterMap fun el =>
    keepTrimmed (if isRecord el then coerceToString (el.get "value") else none))

/-- One iteration of the monologues loop. -/
def buildMonologueLine (mono : Json) : Option String :=
  let speaker := coerceToString (mono.get "speaker")
  let ts := formatTimestampSecondsToHHMMSS (numProp mono "start")
  let elements := if isRecord mono then asArray (mono.get "elements") else none
  let text := elements.map monoElementsText
  let line := lineOf speaker ts text
  if line ≠ "" then some line else none

/-- The `words` branch body: word texts filtered like the other shapes and
joined with single spaces. -/
def wordsText (ws : List Json) : String :=
  joinSep " " (ws.filterMap fun w =>
    keepTrimmed (if isRecord w then coerceToString (w.get "text") else none))

/-- The `segments` block: returns the joined lines only when at least one
non-empty line was produced. -/
def shapeSegments (j : Json) : Option String :=
  if isRecord j then
    match asArray (j.get "segments") with
    | some segs =>
      let lines := segs.filterMap buildSegmentLine
      if lines.length > 0 then some (joinSep "\n" lines) else none
    | none => none
  else none

/-- The `monologues` block. -/
def shapeMonologues (j : Json) : Option String :=
  if isRecord j then
    match asArray (j.get "monologues") with
    | some monos =>
      let lines := monos.filterMap buildMonologueLine
      if lines.length > 0 then some (joinSep "\n" lines) else none
    | none => none
  else none

/-- The `paragraphs` block — the source repeats the segments loop verbatim. -/
def shapeParagraphs (j : Json) : Option String :=
  if isRecord j then
    match asArray (j.get "paragraphs") with
    | some paras =>
      let lines := paras.filterMap buildSegmentLine
      if lines.length > 0 then some (joinSep "\n" lines) else none
    | none => none
  else none

/-- The `words` block: when a `words` array is present its join is returned
unconditionally (there is no emptiness check in the source). -/
def shapeWords (j : Json) : Option String :=
  if isRecord j then
    match asArray (j.get "words") with
    | some ws => some (wordsText ws)
    | none => none
  else none

/-- `transformTranscriptJsonToText(jsonData)`: the early-return cascade of the
four shape blocks followed by the bare-text fallback. -/
def transformTranscriptJsonToText (jsonData : Json) : String :=
  match shapeSegments jsonData with
  | some out => out
  | none =>
  match shapeMonologues jsonData with
  | some out => out
  | none =>
  match shapeParagraphs jsonData with
  | some out => out
  | none =>
  match shapeWords jsonData with
  | some out => out
  | none =>
  if isRecord jsonData then
    match jsonData.get "text" with
    | some (.str s) => s
    | _ => ""
  else ""

/-! ## HTML meta-tag extractors

Variant A (`extractTranscriptJsonUrlFromHtml`) uses two regexes:
`/<meta\s+[^>]*property=["']descript:transcript["'][^>]*>/i` to find the tag,
then `/content=["']([^"']+)["']/i` on the matched tag text.

Variant B (`getTranscriptUrl`) uses the single stricter regex
`/<meta\s+property="descript:transcript"\s+content="([^"]+)"/i`.

Both are embedded as deterministic scanners over `List Char`:
a `.match` without the `g` flag finds the leftmost match, and every star in
these patterns ranges over a single-character class, so greedy matching with
backtracking collapses to linear scans:
* `[^>]*X[^>]*>` extends to the first `>` after an occurrence of `X`, and the
  occurrence being first/last does not change the matched extent;
* `[^"']+["']` (and `[^"]+"`) take the maximal quote-free run and require the
  terminating quote — backtracking to a shorter run can never succeed because
  the next character would still not be a quote;
* `\s+` followed by a literal whose first character is not whitespace consumes
  the maximal whitespace run.
The `/i` flag is character-wise ASCII case-insensitivity (`Char.toLower` on
both sides); the patterns are ASCII, so no Unicode canonicalization applies. -/

/-- Case-insensitive literal match: consume `pat` from the front of the input,
returning the remainder. -/
def dropLitCI : List Char → List Char → Option (List Char)
  | [], s => some s
  | _ :: _, [] => none
  | p :: ps, c :: cs => if c.toLower = p.toLower then dropLitCI ps cs else none

/-- Case-sensitive literal match (for the share-URL regex, which has no `/i`). -/
def dropLitCS : List Char → List Char → Option (List Char)
  | [], s => some s
  | _ :: _, [] => none
  | p :: ps, c :: cs => if c = p then dropLitCS ps cs else none

/-- The character class `["']`. -/
def dropQuote : List Char → Option (List Char)
  | c :: cs => if c = '"' ∨ c = '\'' then some cs else none
  | [] => none

/-- `\s+` followed by a non-whitespace literal: consume the maximal whitespace
run, requiring at least one character. -/
def dropWsPlus (s : List Char) : Option (List Char) :=
  match s with
  | [] => none
  | c :: cs => if isWs c then some (cs.dropWhile isWs) else none

/-- `property=["']descript:transcript["']` (case-insensitive) at the current
position. -/
def trySentinelAt (s : List Char) : Option (List Char) :=
  match dropLitCI "property=".data s with
  | none => none
  | some s1 =>
    match dropQuote s1 with
    | none => none
    | some s2 =>
      match dropLitCI "descript:transcript".data s2 with
      | none => none
      | some s3 => dropQuote s3

/-- Scan `[^>]*` for the sentinel: try each position, stopping at `>`. -/
def findSentinelEnd : List Char → Option (List Char)
  | [] => none
  | c :: cs =>
    match trySentinelAt (c :: cs) with
    | some rest => some rest
    | none => if c = '>' then none else findSentinelEnd cs

/-- `[^>]*>`: consume up to and including the first `>`. -/
def dropThruGt : List Char → Option (List Char)
  | [] => none
  | c :: cs => if c = '>' then some cs else dropThruGt cs

/-- The tag regex of Variant A anchored at the current position: on success
returns the matched tag text (`tagMatch[0]`). -/
def tryMetaAt (s : List Char) : Option (List Char) :=
  match dropLitCI "<meta".data s with
  | none => none
  | some s1 =>
    match s1 with
    | [] => none
    | c :: cs =>
      if isWs c then
        match findSentinelEnd cs with
        | none => none
        | some r =>
          match dropThruGt r with
          | none => none
          | some rest => some (s.take (s.length - rest.length))
      else none

/-- `html.match(metaRegex)`: leftmost match of the tag regex. -/
def findMetaTag : List Char → Option (List Char)
  | [] => none
  | c :: cs =>
    match tryMetaAt (c :: cs) with
    | some tag => some tag
    | none => findMetaTag cs

/-- `content=["']([^"']+)["']` (case-insensitive) at the current position:
on success returns the capture group. -/
def tryContentAt (s : List Char) : Option (List Char) :=
  match dropLitCI "content=".data s with
  | none => none
  | some s1 =>
    match dropQuote s1 with
    | none => none
    | some s2 =>
      let v := s2.takeWhile (fun c => ¬(c = '"' ∨ c = '\''))
      if v = [] then none
      else
        match s2.dropWhile (fun c => ¬(c = '"' ∨ c = '\'')) with
        | c :: _ => if c = '"' ∨ c = '\'' then some v else none
        | [] => none

/-- `tagMatch[0].match(contentRegex)`: leftmost content attribute. -/
def scanContent : List Char → Option (List Char)
  | [] => none
  | c :: cs =>
    match tryContentAt (c :: cs) with
    | some v => some v
    | none => scanContent cs

/-- Variant A: `extractTranscriptJsonUrlFromHtml(html)`. -/
def extractTranscriptJsonUrlFromHtml (html : String) : Option String :=
  match findMetaTag html.data with
  | none => none
  | some tag =>
    match scanContent tag with
    | some v => some (String.mk v)
    | none => none

/-- Variant B's `META_RE` anchored at the current position: on success returns
the capture group. -/
def tryMetaTagBAt (s : List Char) : Option (List Char) :=
  match dropLitCI "<meta".data s with
  | none => none
  | some s1 =>
    match dropWsPlus s1 with
    | none => none
    | some s2 =>
      match dropLitCI "property=\"descript:transcript\"".data s2 with
      | none => none
      | some s3 =>
        match dropWsPlus s3 with
        | none => none
        | some s4 =>
          match dropLitCI "content=\"".data s4 with
          | none => none
          | some s5 =>
            let v := s5.takeWhile (fun c => c ≠ '"')
            if v = [] then none
            else
              match s5.dropWhile (fun c => c ≠ '"') with
              | c :: _ => if c = '"' then some v else none
              | [] => none

/-- Leftmost match of `META_RE`. -/
def scanMetaB : List Char → Option (List Char)
  | [] => none
  | c :: cs =>
    match tryMetaTagBAt (c :: cs) with
    | some v => some v
    | none => scanMetaB cs

/-- Variant B: the pure part of `getTranscriptUrl` —
`html.match(META_RE)` then `m?.[1] ?? null`. -/
def getTranscriptUrlFromHtmlB (html : String) : Option String :=
  (scanMetaB html.data).map String.mk

/-! ## Share-URL validation (Variant B) -/

/-- `[A-Za-z0-9]`. -/
def isAsciiAlphanum (c : Char) : Bool :=
  ('A' ≤ c && c ≤ 'Z') || ('a' ≤ c && c ≤ 'z') || ('0' ≤ c && c ≤ '9')

/-- `DESCRIPT_RE.test(s)` for
`/^https:\/\/share\.descript\.com\/view\/[A-Za-z0-9]+$/` (case-sensitive,
anchored at both ends, no multiline flag). -/
def descriptShareRe (s : String) : Bool :=
  match dropLitCS "https://share.descript.com/view/".data s.data with
  | some rest => !rest.isEmpty && rest.all isAsciiAlphanum
  | none => false

/-! ## Request handlers

Outbound fetches are oracle inputs.  `FetchOutcome` is a settled `Response`:
its HTTP status, its `.text()` body, and its `.json()` result (`none` when the
body is not valid JSON, i.e. `.json()` would throw).  A fetch whose promise
rejects (network error, abort/timeout) is an `Except.error` carrying the error
message. -/

structure FetchOutcome where
  status : Nat
  text : String
  json : Option Json

/-- `Response.ok`: status in the range 200–299. -/
def respOk (r : FetchOutcome) : Bool :=
  decide (200 ≤ r.status) && decide (r.status < 300)

/-- Variant A's request body type. -/
structure IncomingPayload where
  descript_url : Option String
  make_webhook_url : Option String

/-- Variant A's response body type (`metadata` flattened into the structure). -/
structure OutgoingPayload where
  success : Bool
  transcript : Option String
  source_url : Option String
  transcript_json_url : Option String
  processing_time : Option Nat
  error : Option String
deriving Repr

/-- The three outbound calls Variant A's `POST` can make, as oracles. -/
structure EnvA where
  share : Except String FetchOutcome
  transcriptFetch : Except String FetchOutcome
  webhook : Except String FetchOutcome

/-- Variant A `POST` handler.  `body = none` models a request body that is not
valid JSON.  `durationMs` is the elapsed time observed at the success point
(`Date.now() - startedAt`).  Returns the HTTP status and the JSON payload.

Field-presence notes, mirroring the source's checks:
an absent or empty (falsy) `descript_url`/`make_webhook_url` is rejected with
400; the empty-transcript check `!t || t.trim().length === 0` collapses to
`jsTrim t = ""`; a webhook fetch rejection leaves `webhookStatus = 0`, giving
the generic delivery-failure message. -/
def POST_A (body : Option IncomingPayload) (env : EnvA) (durationMs : Nat) :
    Nat × OutgoingPayload :=
  match body with
  | none => (400, ⟨false, none, none, none, none, some "Invalid JSON body"⟩)
  | some b =>
    match b.descript_url with
    | none => (400, ⟨false, none, none, none, none, some "Missing or invalid descript_url"⟩)
    | some descriptUrl =>
      if descriptUrl = "" then
        (400, ⟨false, none, none, none, none, some "Missing or invalid descript_url"⟩)
      else
        match b.make_webhook_url with
        | none => (400, ⟨false, none, some descriptUrl, none, none,
            some "Missing or invalid make_webhook_url"⟩)
        | some makeWebhookUrl =>
          if makeWebhookUrl = "" then
            (400, ⟨false, none, some descriptUrl, none, none,
              some "Missing or invalid make_webhook_url"⟩)
          else
            match env.share with
            | .error e => (500, ⟨false, none, none, none, none,
                some ("Unexpected error: " ++ e)⟩)
            | .ok shareResponse =>
              if !respOk shareResponse then
                (502, ⟨false, none, some descriptUrl, none, none,
                  some ("Failed to fetch Descript page: HTTP " ++ toString shareResponse.status)⟩)
              else
                match extractTranscriptJsonUrlFromHtml shareResponse.text with
                | none => (422, ⟨false, none, some descriptUrl, none, none,
                    some "Unable to locate transcript JSON URL in page HTML"⟩)
                | some transcriptJsonUrl =>
                  match env.transcriptFetch with
                  | .error e => (500, ⟨false, none, none, none, none,
                      some ("Unexpected error: " ++ e)⟩)
                  | .ok transcriptResponse =>
                    if !respOk transcriptResponse then
                      (502, ⟨false, none, some descriptUrl, some transcriptJsonUrl, none,
                        some ("Failed to fetch transcript JSON: HTTP " ++
                          toString transcriptResponse.status)⟩)
                    else
                      match transcriptResponse.json with
                      | none => (422, ⟨false, none, some descriptUrl, some transcriptJsonUrl, none,
                          some "Transcript JSON parsing failed"⟩)
                      | some transcriptJson =>
                        let transcriptText := transformTranscriptJsonToText transcriptJson
                        if jsTrim transcriptText = "" then
                          (422, ⟨false, none, some descriptUrl, some transcriptJsonUrl, none,
                            some "Transcript JSON did not contain recognizable text"⟩)
                        else
                          let outgoing : OutgoingPayload :=
                            ⟨true, some transcriptText, some descriptUrl,
                              some transcriptJsonUrl, some durationMs, none⟩
                          match env.webhook with
                          | .error _ => (200, { outgoing with
                              success := false,
                              error := some "Failed to deliver results to Make webhook" })
                          | .ok webhookResponse =>
                            if respOk webhookResponse then (200, outgoing)
                            else (200, { outgoing with
                              success := false,
                              error := some (if webhookResponse.status > 0 then
                                  "Make webhook returned HTTP " ++ toString webhookResponse.status
                                else "Failed to deliver results to Make webhook") })

/-- Variant B's response body type. -/
structure BPayload where
  ok : Bool
  transcriptUrl : Option String
  transcript : Option Json
  error : Option String

/-- `bad(msg, status)`'s payload. -/
def badB (msg : String) : BPayload :=
  ⟨false, none, none, some msg⟩

/-- Variant B `GET` handler over a fetch oracle.  `u`/`expandParam` are the
query parameters.  Returns the handler outcome (`Except.error` models an
uncaught exception — here only a `.json()` failure on the transcript response)
together with the list of URLs fetched, in order. -/
def GET_B (u : Option String) (expandParam : Option String)
    (fetch : String → FetchOutcome) :
    Except String (Nat × BPayload) × List String :=
  let shareUrl := u.map jsTrim
  let expand := expandParam = some "true"
  match shareUrl with
  | none => (Except.ok (400, badB "invalid descript share url"), [])
  | some su =>
    if descriptShareRe su then
      let r := fetch su
      match getTranscriptUrlFromHtmlB r.text with
      | none => (Except.ok (404, badB "transcript meta not found"), [su])
      | some transcriptUrl =>
        if expand then
          let tRes := fetch transcriptUrl
          if respOk tRes then
            match tRes.json with
            | some transcript =>
              (Except.ok (200, ⟨true, some transcriptUrl, some transcript, none⟩),
                [su, transcriptUrl])
            | none => (Except.error "transcript response JSON parsing failed",
                [su, transcriptUrl])
          else
            (Except.ok (502, badB ("failed to fetch transcript json (" ++
              toString tRes.status ++ ")")), [su, transcriptUrl])
        else
          (Except.ok (200, ⟨true, some transcriptUrl, none, none⟩), [su])
    else (Except.ok (400, badB "invalid descript share url"), [])

/-- Variant B `POST` handler.  A body that fails to parse becomes `{}`
(`url = none`); `expand` is the truthiness of the body's `expand` field.
The `url` field is validated without trimming. -/
def POST_B (url : Option String) (expand : Bool)
    (fetch : String → FetchOutcome) :
    Except String (Nat × BPayload) × List String :=
  match url with
  | none => (Except.ok (400, badB "invalid descript share url"), [])
  | some u =>
    if descriptShareRe u then
      let r := fetch u
      match getTranscriptUrlFromHtmlB r.text with
      | none => (Except.ok (404, badB "transcript meta not found"), [u])
      | some transcriptUrl =>
        if expand then
          let tRes := fetch transcriptUrl
          if respOk tRes then
            match tRes.json with
            | some transcript =>
              (Except.ok (200, ⟨true, some transcriptUrl, some transcript, none⟩),
                [u, transcriptUrl])
            | none => (Except.error "transcript response JSON parsing failed",
                [u, transcriptUrl])
          else
            (Except.ok (502, badB ("failed to fetch transcript json (" ++
              toString tRes.status ++ ")")), [u, transcriptUrl])
        else
          (Except.ok (200, ⟨true, some transcriptUrl, none, none⟩), [u])
    else (Except.ok (400, badB "invalid descript share url"), [])

/-! ## Spec-side definitions (for refinement-style claims) -/

/-- The timestamp format as the spec words it: floor to whole seconds, clamp
negatives to zero, and zero-pad hours `t / 3600`, minutes `t / 60 mod 60` and
seconds `t mod 60` to two digits. -/
def specTimestamp (q : Rat) : String :=
  let t : Nat := (max 0 (ratFloor q)).toNat
  padStart2 (toString (t / 3600)) ++ ":" ++
    padStart2 (toString (t / 60 % 60)) ++ ":" ++ padStart2 (toString (t % 60))

/-- Replace (or add) a field of an object's field list, leaving other keys'
lookups unchanged: used to state that a monologue is formatted exactly like a
segment whose `text` is the concatenated element values. -/
def setField (fields : List (String × Json)) (k : String) (v : Json) :
    List (String × Json) :=
  fields.filter (fun p => p.1 ≠ k) ++ [(k, v)]

/-! ## Supporting lemmas -/

theorem isRecord_of_get_some {j : Json} {k : String} {v : Json}
    (h : j.get k = some v) : isRecord j = true := by
  cases j <;> simp_all [Json.get, isRecord]

theorem lookupLast_append_single (k : String) (v : Json) (xs : List (String × Json)) :
    lookupLast k (xs ++ [(k, v)]) = some v := by
  induction xs with
  | nil => simp [lookupLast]
  | cons p xs ih => cases p with
    | mk k1 v1 => simp [lookupLast, ih]

theorem lookupLast_append_single_ne (k k' : String) (v : Json)
    (xs : List (String × Json)) (h : k' ≠ k) :
    lookupLast k' (xs ++ [(k, v)]) = lookupLast k' xs := by
  induction xs with
  | nil => simp [lookupLast, Ne.symm h]
  | cons p xs ih => cases p with
    | mk k1 v1 => simp [lookupLast, ih]

theorem lookupLast_filter_ne (k k' : String) (h : k' ≠ k)
    (fs : List (String × Json)) :
    lookupLast k' (fs.filter (fun p => p.1 ≠ k)) = lookupLast k' fs := by
  induction fs with
  | nil => rfl
  | cons p fs ih =>
    cases p with
    | mk k1 v1 =>
      by_cases hk : k1 = k
      · subst hk
        have hf : ((k1, v1) :: fs).filter (fun p => p.1 ≠ k1)
            = fs.filter (fun p => p.1 ≠ k1) := by
          simp [List.filter_cons]
        rw [hf, ih]
        cases hl : lookupLast k' fs with
        | some r => simp [lookupLast, hl]
        | none => simp [lookupLast, hl, Ne.symm h]
      · have hf : ((k1, v1) :: fs).filter (fun p => p.1 ≠ k)
            = (k1, v1) :: fs.filter (fun p => p.1 ≠ k) := by
          simp [List.filter_cons, hk]
        rw [hf]
        simp only [lookupLast, ih]

theorem lookupLast_setField_self (k : String) (v : Json) (fs : List (String × Json)) :
    lookupLast k (setField fs k v) = some v :=
  lookupLast_append_single k v _

theorem lookupLast_setField_ne (k k' : String) (v : Json)
    (fs : List (String × Json)) (h : k' ≠ k) :
    lookupLast k' (setField fs k v) = lookupLast k' fs := by
  unfold setField
  rw [lookupLast_append_single_ne k k' v _ h, lookupLast_filter_ne k k' h fs]

/-! ## C6 -/

/-- C6: normalizing `{"segments":[{"speaker":"Alice","text":"Hello","start":5}]}`
yields exactly `"[00:00:05] Alice: Hello"`, and for every numeric `start` the
produced timestamp is the spec's flooring/clamping/zero-padding format
(`hours = t / 3600`, `minutes = t / 60 mod 60`, `seconds = t mod 60` of the
clamped floor `t`, each zero-padded to two digits). -/
theorem C6_timestamp_format :
    transformTranscriptJsonToText
      (Json.obj [("segments", Json.arr [Json.obj
        [("speaker", Json.str "Alice"), ("text", Json.str "Hello"), ("start", Json.num 5)]])])
      = "[00:00:05] Alice: Hello" ∧
    ∀ q : Rat, formatTimestampSecondsToHHMMSS (some q) = some (specTimestamp q) := by
  refine ⟨by decide, fun q => ?_⟩
  have key : ∀ t : Nat, t % 3600 / 60 = t / 60 % 60 := fun t => by omega
  simp only [formatTimestampSecondsToHHMMSS, specTimestamp]
  rw [key]

/-! ## C1 -/

/-- C1 counterexample: `{"words":[],"text":"hello"}` has a `words` array whose
extraction yields empty text and a non-empty string `text` field, yet the
normalizer returns the empty string, not the bare text. -/
theorem C1_counterexample :
    transformTranscriptJsonToText
        (Json.obj [("words", Json.arr []), ("text", Json.str "hello")]) = "" ∧
      Json.get (Json.obj [("words", Json.arr []), ("text", Json.str "hello")]) "text"
        = some (Json.str "hello") :=
  ⟨rfl, rfl⟩

/-- C1 (amended): the normalizer probes segments, monologues, paragraphs,
words, bare text in that order, but once a `words` array is present its join is
returned unconditionally — even when empty — so the bare-text fallback is never
reached past a `words` array.  Formally: if the first three shapes produce
nothing and the value has a `words` array `ws`, the result is exactly
`wordsText ws`, whatever the `text` field holds. -/
theorem C1_amended (j : Json) (ws : List Json)
    (h1 : shapeSegments j = none) (h2 : shapeMonologues j = none)
    (h3 : shapeParagraphs j = none) (h4 : asArray (j.get "words") = some ws) :
    transformTranscriptJsonToText j = wordsText ws := by
  have hrec : isRecord j = true := by
    cases hg : j.get "words" with
    | none => rw [hg] at h4; simp [asArray] at h4
    | some v => exact isRecord_of_get_some hg
  simp [transformTranscriptJsonToText, h1, h2, h3, shapeWords, hrec, h4]

theorem C1_amended_witness :
    transformTranscriptJsonToText
        (Json.obj [("words", Json.arr
          [Json.obj [("text", Json.str "Hi")], Json.obj [("text", Json.str "there")]])]) =
      wordsText [Json.obj [("text", Json.str "Hi")], Json.obj [("text", Json.str "there")]] :=
  C1_amended _ _ rfl rfl rfl rfl

/-! ## C7 -/

/-- C7 counterexample: in the monologue
`{"monologues":[{"elements":[{"value":"a"},{"value":" "},{"value":"b"}]}]}`
the whitespace-only value `" "` is dropped by the filter, so the text is
`"ab"`, not the direct concatenation `"a b"` of all value fields. -/
theorem C7_counterexample :
    transformTranscriptJsonToText
        (Json.obj [("monologues", Json.arr [Json.obj [("elements",
          Json.arr [Json.obj [("value", Json.str "a")], Json.obj [("value", Json.str " ")],
            Json.obj [("value", Json.str "b")]])]])]) = "ab" ∧
      ("ab" : String) ≠ "a b" :=
  ⟨rfl, by decide⟩

/-- C7 (amended): a monologue's text is the concatenation, in order and with no
separator, of those element `value` fields that remain non-empty after
trimming (empty and whitespace-only values are dropped), and the resulting
line is formatted exactly like a segment whose `text` field is that
concatenation. -/
theorem C7_amended (fields : List (String × Json)) (els : List Json)
    (h : lookupLast "elements" fields = some (Json.arr els)) :
    buildMonologueLine (Json.obj fields) =
      buildSegmentLine (Json.obj
        (setField fields "text" (Json.str (monoElementsText els)))) := by
  have hsp : lookupLast "speaker" (setField fields "text" (Json.str (monoElementsText els)))
      = lookupLast "speaker" fields :=
    lookupLast_setField_ne _ _ _ _ (by decide)
  have hst : lookupLast "start" (setField fields "text" (Json.str (monoElementsText els)))
      = lookupLast "start" fields :=
    lookupLast_setField_ne _ _ _ _ (by decide)
  have htx : lookupLast "text" (setField fields "text" (Json.str (monoElementsText els)))
      = some (Json.str (monoElementsText els)) :=
    lookupLast_setField_self _ _ _
  simp [buildMonologueLine, buildSegmentLine, Json.get, numProp, isRecord, asArray,
    h, hsp, hst, htx, coerceToString]

theorem C7_amended_witness :
    buildMonologueLine (Json.obj [("speaker", Json.str "Bob"),
        ("elements", Json.arr [Json.obj [("value", Json.str "Hi")]])]) =
      buildSegmentLine (Json.obj (setField
        [("speaker", Json.str "Bob"),
          ("elements", Json.arr [Json.obj [("value", Json.str "Hi")]])]
        "text" (Json.str (monoElementsText [Json.obj [("value", Json.str "Hi")]])))) :=
  C7_amended _ _ rfl

/-! ## C9 -/

/-- C9: the normalizer is total by construction (it is a Lean function on all
of `Json`, covering null, booleans, numbers, strings, arrays and objects), and
whenever the value carries none of the keys `segments`, `monologues`,
`paragraphs`, `words` and no string `text` field — in particular for every
non-object — the result is the empty string. -/
theorem C9_unrecognized_empty (j : Json)
    (h1 : j.get "segments" = none) (h2 : j.get "monologues" = none)
    (h3 : j.get "paragraphs" = none) (h4 : j.get "words" = none)
    (h5 : ∀ s, j.get "text" ≠ some (Json.str s)) :
    transformTranscriptJsonToText j = "" := by
  have e1 : shapeSegments j = none := by simp [shapeSegments, h1, asArray]
  have e2 : shapeMonologues j = none := by simp [shapeMonologues, h2, asArray]
  have e3 : shapeParagraphs j = none := by simp [shapeParagraphs, h3, asArray]
  have e4 : shapeWords j = none := by simp [shapeWords, h4, asArray]
  simp only [transformTranscriptJsonToText, e1, e2, e3, e4]
  cases hg : j.get "text" with
  | none => simp
  | some v =>
    cases v with
    | str s => exact absurd hg (h5 s)
    | null => simp
    | bool b => simp
    | num q => simp
    | arr xs => simp
    | obj fs => simp

theorem C9_witness :
    transformTranscriptJsonToText (Json.obj [("foo", Json.num 1)]) = "" :=
  C9_unrecognized_empty _ rfl rfl rfl rfl (fun _ h => Option.noConfusion h)

/-! ## C5 -/

/-- C5: when Variant A's extraction succeeds but the webhook returns a non-2xx
status, the HTTP-200 response has `success = false` and an error message
carrying the webhook's status code, while `transcript`, `source_url`,
`transcript_json_url` and `processing_time` are exactly those of the success
payload (second conjunct: the same pipeline with a 2xx webhook). -/
theorem C5_webhook_failure_payload (du wu tUrl : String) (sh t w : FetchOutcome)
    (tj : Json) (dur : Nat)
    (hdu : du ≠ "") (hwu : wu ≠ "")
    (hsh : respOk sh = true)
    (hext : extractTranscriptJsonUrlFromHtml sh.text = some tUrl)
    (ht : respOk t = true)
    (htj : t.json = some tj)
    (htx : jsTrim (transformTranscriptJsonToText tj) ≠ "")
    (hw : respOk w = false) (hws : w.status > 0) :
    POST_A (some ⟨some du, some wu⟩) ⟨.ok sh, .ok t, .ok w⟩ dur =
      (200, ⟨false, some (transformTranscriptJsonToText tj), some du, some tUrl,
        some dur, some ("Make webhook returned HTTP " ++ toString w.status)⟩) ∧
    ∀ w2 : FetchOutcome, respOk w2 = true →
      POST_A (some ⟨some du, some wu⟩) ⟨.ok sh, .ok t, .ok w2⟩ dur =
        (200, ⟨true, some (transformTranscriptJsonToText tj), some du, some tUrl,
          some dur, none⟩) := by
  constructor
  · simp [POST_A, hdu, hwu, hsh, hext, ht, htj, htx, hw, hws]
  · intro w2 hw2
    simp [POST_A, hdu, hwu, hsh, hext, ht, htj, htx, hw2]

theorem C5_witness :
    POST_A (some ⟨some "https://share.descript.com/view/w5", some "https://hook.example/h"⟩)
        ⟨.ok ⟨200, "<meta property=\"descript:transcript\" content=\"https://t/j\"/>", none⟩,
          .ok ⟨200, "", some (Json.obj [("text", Json.str "hi")])⟩,
          .ok ⟨500, "", none⟩⟩ 12 =
      (200, ⟨false, some "hi", some "https://share.descript.com/view/w5",
        some "https://t/j", some 12, some "Make webhook returned HTTP 500"⟩) ∧
    POST_A (some ⟨some "https://share.descript.com/view/w5", some "https://hook.example/h"⟩)
        ⟨.ok ⟨200, "<meta property=\"descript:transcript\" content=\"https://t/j\"/>", none⟩,
          .ok ⟨200, "", some (Json.obj [("text", Json.str "hi")])⟩,
          .ok ⟨204, "", none⟩⟩ 12 =
      (200, ⟨true, some "hi", some "https://share.descript.com/view/w5",
        some "https://t/j", some 12, none⟩) := by
  have h := C5_webhook_failure_payload "https://share.descript.com/view/w5"
    "https://hook.example/h" "https://t/j"
    ⟨200, "<meta property=\"descript:transcript\" content=\"https://t/j\"/>", none⟩
    ⟨200, "", some (Json.obj [("text", Json.str "hi")])⟩
    ⟨500, "", none⟩ (Json.obj [("text", Json.str "hi")]) 12
    (by decide) (by decide) rfl rfl rfl rfl (by decide) rfl (by decide)
  exact ⟨h.1, h.2 ⟨204, "", none⟩ rfl⟩

/-! ## C4 -/

/-- C4 counterexample: Variant B never checks the share-page fetch status —
with the share page answering HTTP 500 but carrying the meta tag, the handler
responds 200/ok instead of a 502 carrying the upstream status. -/
theorem C4_counterexample :
    GET_B (some "https://share.descript.com/view/abc") none
        (fun _ => ⟨500, "<meta property=\"descript:transcript\" content=\"https://t/j\">", none⟩) =
      (Except.ok (200, ⟨true, some "https://t/j", none, none⟩),
        ["https://share.descript.com/view/abc"]) := rfl

/-- C4 (amended): Variant A responds 502 with the upstream status for a non-2xx
share-page fetch and likewise for the transcript-document fetch; Variant B does
not check the share-page fetch status at all and responds 502 carrying the
upstream status only for the transcript-document fetch (reached when `expand`
is requested). -/
theorem C4_amended :
    (∀ (du wu : String) (r : FetchOutcome) (env : EnvA) (dur : Nat),
      du ≠ "" → wu ≠ "" → env.share = .ok r → respOk r = false →
      POST_A (some ⟨some du, some wu⟩) env dur =
        (502, ⟨false, none, some du, none, none,
          some ("Failed to fetch Descript page: HTTP " ++ toString r.status)⟩)) ∧
    (∀ (du wu tUrl : String) (sh t : FetchOutcome) (env : EnvA) (dur : Nat),
      du ≠ "" → wu ≠ "" → env.share = .ok sh → respOk sh = true →
      extractTranscriptJsonUrlFromHtml sh.text = some tUrl →
      env.transcriptFetch = .ok t → respOk t = false →
      POST_A (some ⟨some du, some wu⟩) env dur =
        (502, ⟨false, none, some du, some tUrl, none,
          some ("Failed to fetch transcript JSON: HTTP " ++ toString t.status)⟩)) ∧
    (∀ (u tUrl : String) (fetch : String → FetchOutcome),
      descriptShareRe (jsTrim u) = true →
      getTranscriptUrlFromHtmlB (fetch (jsTrim u)).text = some tUrl →
      respOk (fetch tUrl) = false →
      GET_B (some u) (some "true") fetch =
        (Except.ok (502, badB ("failed to fetch transcript json (" ++
          toString (fetch tUrl).status ++ ")")), [jsTrim u, tUrl])) := by
  refine ⟨?_, ?_, ?_⟩
  · intro du wu r env dur hdu hwu hsh hr
    simp [POST_A, hdu, hwu, hsh, hr]
  · intro du wu tUrl sh t env dur hdu hwu hsh hok hext htf ht
    simp [POST_A, hdu, hwu, hsh, hok, hext, htf, ht]
  · intro u tUrl fetch hre hext ht
    simp [GET_B, hre, hext, ht]

theorem C4_amended_witness :
    POST_A (some ⟨some "https://share.descript.com/view/c4a", some "https://hook.example/a"⟩)
        ⟨.ok ⟨503, "oops", none⟩, .ok ⟨200, "", none⟩, .ok ⟨200, "", none⟩⟩ 3 =
      (502, ⟨false, none, some "https://share.descript.com/view/c4a", none, none,
        some "Failed to fetch Descript page: HTTP 503"⟩) ∧
    POST_A (some ⟨some "https://share.descript.com/view/c4a", some "https://hook.example/a"⟩)
        ⟨.ok ⟨200, "<meta property=\"descript:transcript\" content=\"https://t/c4\">", none⟩,
          .ok ⟨404, "", none⟩, .ok ⟨200, "", none⟩⟩ 3 =
      (502, ⟨false, none, some "https://share.descript.com/view/c4a", some "https://t/c4", none,
        some "Failed to fetch transcript JSON: HTTP 404"⟩) ∧
    GET_B (some "https://share.descript.com/view/c4b") (some "true")
        (fun u => if u = "https://share.descript.com/view/c4b" then
          ⟨200, "<meta property=\"descript:transcript\" content=\"https://t/c4b\">", none⟩
          else ⟨503, "", none⟩) =
      (Except.ok (502, badB "failed to fetch transcript json (503)"),
        ["https://share.descript.com/view/c4b", "https://t/c4b"]) := by
  refine ⟨C4_amended.1 "https://share.descript.com/view/c4a" "https://hook.example/a"
      ⟨503, "oops", none⟩
      ⟨.ok ⟨503, "oops", none⟩, .ok ⟨200, "", none⟩, .ok ⟨200, "", none⟩⟩ 3
      (by decide) (by decide) rfl (by decide),
    C4_amended.2.1 "https://share.descript.com/view/c4a" "https://hook.example/a" "https://t/c4"
      ⟨200, "<meta property=\"descript:transcript\" content=\"https://t/c4\">", none⟩
      ⟨404, "", none⟩
      ⟨.ok ⟨200, "<meta property=\"descript:transcript\" content=\"https://t/c4\">", none⟩,
        .ok ⟨404, "", none⟩, .ok ⟨200, "", none⟩⟩ 3
      (by decide) (by decide) rfl (by decide) rfl rfl (by decide), ?_⟩
  exact C4_amended.2.2 "https://share.descript.com/view/c4b" "https://t/c4b" _ (by decide) rfl rfl

/-! ## C8 -/

/-- C8 counterexample: the GET handler trims the `u` parameter before
validating, so the padded string below — which does not match the share-URL
pattern — is not rejected: the handler proceeds, makes a network call and
answers 200. -/
theorem C8_counterexample :
    descriptShareRe " https://share.descript.com/view/pqz " = false ∧
    GET_B (some " https://share.descript.com/view/pqz ") none
        (fun _ => ⟨200, "<meta property=\"descript:transcript\" content=\"https://tp\">", none⟩) =
      (Except.ok (200, ⟨true, some "https://tp", none, none⟩),
        ["https://share.descript.com/view/pqz"]) :=
  ⟨by decide, rfl⟩

/-- C8 (amended): Endpoint B rejects with a 400 client error, making no network
call, every request whose share-URL input fails the pattern after the handler's
normalization — the trimmed `u` parameter for GET, the raw `url` field for POST
(missing inputs included).  The empty call list and the unconstrained fetch
oracle witness that no network call is made. -/
theorem C8_amended :
    (∀ (e : Option String) (f : String → FetchOutcome),
      GET_B none e f = (Except.ok (400, badB "invalid descript share url"), [])) ∧
    (∀ (u : String) (e : Option String) (f : String → FetchOutcome),
      descriptShareRe (jsTrim u) = false →
      GET_B (some u) e f = (Except.ok (400, badB "invalid descript share url"), [])) ∧
    (∀ (x : Bool) (f : String → FetchOutcome),
      POST_B none x f = (Except.ok (400, badB "invalid descript share url"), [])) ∧
    (∀ (u : String) (x : Bool) (f : String → FetchOutcome),
      descriptShareRe u = false →
      POST_B (some u) x f = (Except.ok (400, badB "invalid descript share url"), [])) := by
  refine ⟨fun e f => rfl, ?_, fun x f => rfl, ?_⟩
  · intro u e f h
    simp [GET_B, h]
  · intro u x f h
    simp [POST_B, h]

theorem C8_amended_witness :
    GET_B none none (fun _ => ⟨200, "", none⟩) =
      (Except.ok (400, badB "invalid descript share url"), []) ∧
    GET_B (some "https://evil.example/view/abc") none (fun _ => ⟨200, "", none⟩) =
      (Except.ok (400, badB "invalid descript share url"), []) ∧
    POST_B none false (fun _ => ⟨200, "", none⟩) =
      (Except.ok (400, badB "invalid descript share url"), []) ∧
    POST_B (some "http://share.descript.com/view/abc") false (fun _ => ⟨200, "", none⟩) =
      (Except.ok (400, badB "invalid descript share url"), []) :=
  ⟨C8_amended.1 _ _, C8_amended.2.1 _ _ _ (by decide), C8_amended.2.2.1 _ _,
    C8_amended.2.2.2 _ _ _ (by decide)⟩

/-! ## C10 -/

/-- C10: the GET handler validates the trimmed `u` parameter while the POST
handler validates the raw `url` field, so a share URL surrounded by whitespace
is accepted by GET (the handler proceeds past validation and fetches the
trimmed URL) but rejected with 400 and no network call by POST. -/
theorem C10_trim_asymmetry (s : String) (f : String → FetchOutcome)
    (h1 : descriptShareRe (jsTrim s) = true) (h2 : descriptShareRe s = false) :
    (GET_B (some s) none f).2 = [jsTrim s] ∧
    (GET_B (some s) none f).1 ≠ Except.ok (400, badB "invalid descript share url") ∧
    POST_B (some s) false f = (Except.ok (400, badB "invalid descript share url"), []) := by
  have hg : GET_B (some s) none f =
      (Except.ok (404, badB "transcript meta not found"), [jsTrim s]) ∨
      ∃ tu, GET_B (some s) none f =
        (Except.ok (200, ⟨true, some tu, none, none⟩), [jsTrim s]) := by
    cases hm : getTranscriptUrlFromHtmlB (f (jsTrim s)).text with
    | none => left; simp [GET_B, h1, hm]
    | some tu => right; exact ⟨tu, by simp [GET_B, h1, hm]⟩
  have hpost : POST_B (some s) false f =
      (Except.ok (400, badB "invalid descript share url"), []) := by
    simp [POST_B, h2]
  rcases hg with hg | ⟨tu, hg⟩
  · refine ⟨by rw [hg], ?_, hpost⟩
    rw [hg]
    intro he
    simp [badB] at he
  · refine ⟨by rw [hg], ?_, hpost⟩
    rw [hg]
    intro he
    simp [badB] at he

theorem C10_witness :
    (GET_B (some " https://share.descript.com/view/trimx ") none
        (fun _ => ⟨200, "", none⟩)).2 = ["https://share.descript.com/view/trimx"] ∧
    (GET_B (some " https://share.descript.com/view/trimx ") none
        (fun _ => ⟨200, "", none⟩)).1 ≠
      Except.ok (400, badB "invalid descript share url") ∧
    POST_B (some " https://share.descript.com/view/trimx ") false
        (fun _ => ⟨200, "", none⟩) =
      (Except.ok (400, badB "invalid descript share url"), []) :=
  C10_trim_asymmetry " https://share.descript.com/view/trimx " _ (by decide) (by decide)

/-! ## Extractor lemmas

Stage 1 of Variant A's extractor (`findMetaTag`): the matched extent of
`<meta\s+[^>]*property=["']...["'][^>]*>` runs from `<meta` to the first `>`
after the sentinel, and any earlier spurious sentinel match inside the tag
leaves that extent unchanged, because everything a sentinel match consumes is
`>`-free. -/

theorem dropLitCI_self : ∀ (pat rest : List Char),
    dropLitCI pat (pat ++ rest) = some rest
  | [], _ => rfl
  | p :: ps, rest => by
    simp only [List.cons_append, dropLitCI, if_pos rfl]
    exact dropLitCI_self ps rest

theorem dropLitCI_sound : ∀ (pat s r : List Char), dropLitCI pat s = some r →
    ∃ con, s = con ++ r ∧ ∀ c ∈ con, ∃ p ∈ pat, c.toLower = p.toLower := by
  intro pat
  induction pat with
  | nil =>
    intro s r h
    simp only [dropLitCI, Option.some.injEq] at h
    exact ⟨[], by simp [h], by simp⟩
  | cons p ps ih =>
    intro s r h
    cases s with
    | nil => simp [dropLitCI] at h
    | cons c cs =>
      by_cases hc : c.toLower = p.toLower
      · simp only [dropLitCI, if_pos hc] at h
        obtain ⟨con, hcon, hall⟩ := ih cs r h
        refine ⟨c :: con, by simp [hcon], ?_⟩
        intro x hx
        rcases List.mem_cons.mp hx with rfl | hx
        · exact ⟨p, List.mem_cons_self p ps, hc⟩
        · obtain ⟨pp, hpp, hppe⟩ := hall x hx
          exact ⟨pp, List.mem_cons_of_mem p hpp, hppe⟩
      · simp [dropLitCI, if_neg hc] at h

theorem dropQuote_sound {s r : List Char} (h : dropQuote s = some r) :
    ∃ q, s = q :: r ∧ (q = '"' ∨ q = '\'') := by
  cases s with
  | nil => simp [dropQuote] at h
  | cons c cs =>
    by_cases hq : c = '"' ∨ c = '\''
    · simp only [dropQuote, if_pos hq, Option.some.injEq] at h
      exact ⟨c, by rw [h], hq⟩
    · simp [dropQuote, if_neg hq] at h

theorem consumed_no_gt {pat con : List Char} (hpat : ∀ p ∈ pat, p.toLower ≠ '>')
    (hall : ∀ c ∈ con, ∃ p ∈ pat, c.toLower = p.toLower) : '>' ∉ con := by
  intro hmem
  obtain ⟨p, hp, heq⟩ := hall _ hmem
  exact hpat p hp heq.symm

theorem trySentinelAt_consumed {s r : List Char} (h : trySentinelAt s = some r) :
    ∃ con, s = con ++ r ∧ '>' ∉ con := by
  cases e1 : dropLitCI "property=".data s with
  | none => simp [trySentinelAt, e1] at h
  | some s1 =>
    cases e2 : dropQuote s1 with
    | none => simp [trySentinelAt, e1, e2] at h
    | some s2 =>
      cases e3 : dropLitCI "descript:transcript".data s2 with
      | none => simp [trySentinelAt, e1, e2, e3] at h
      | some s3 =>
        have h4 : dropQuote s3 = some r := by
          simpa [trySentinelAt, e1, e2, e3] using h
        obtain ⟨c1, hc1, ha1⟩ := dropLitCI_sound _ _ _ e1
        obtain ⟨q1, hq1, hb1⟩ := dropQuote_sound e2
        obtain ⟨c2, hc2, ha2⟩ := dropLitCI_sound _ _ _ e3
        obtain ⟨q2, hq2, hb2⟩ := dropQuote_sound h4
        have hg1 : '>' ∉ c1 := consumed_no_gt (by decide) ha1
        have hg2 : '>' ∉ c2 := consumed_no_gt (by decide) ha2
        refine ⟨c1 ++ (q1 :: (c2 ++ [q2])), ?_, ?_⟩
        · rw [hc1, hq1, hc2, hq2]; simp
        · intro hm
          rcases List.mem_append.mp hm with hm | hm
          · exact hg1 hm
          · rcases List.mem_cons.mp hm with rfl | hm
            · rcases hb1 with h | h <;> simp at h
            · rcases List.mem_append.mp hm with hm | hm
              · exact hg2 hm
              · rcases List.mem_singleton.mp hm with rfl
                rcases hb2 with h | h <;> simp at h

theorem split_at_gt : ∀ (con xs post r : List Char),
    con ++ r = xs ++ '>' :: post → '>' ∉ xs → '>' ∉ con →
    ∃ z, r = z ++ '>' :: post ∧ '>' ∉ z := by
  intro con
  induction con with
  | nil =>
    intro xs post r h hxs hcon
    exact ⟨xs, by simpa using h, hxs⟩
  | cons a con ih =>
    intro xs post r h hxs hcon
    have hcon' : '>' ∉ con := fun hm => hcon (List.mem_cons_of_mem a hm)
    cases xs with
    | nil =>
      simp only [List.cons_append, List.nil_append, List.cons.injEq] at h
      exact absurd (h.1 ▸ List.mem_cons_self a con) hcon
    | cons b xs =>
      simp only [List.cons_append, List.cons.injEq] at h
      exact ih xs post r h.2 (fun hm => hxs (List.mem_cons_of_mem b hm)) hcon'

theorem dropThruGt_skip : ∀ (xs r : List Char), '>' ∉ xs →
    dropThruGt (xs ++ '>' :: r) = some r := by
  intro xs
  induction xs with
  | nil => intro r _; simp [dropThruGt]
  | cons c xs ih =>
    intro r h
    have hc : c ≠ '>' := fun he => h (he ▸ List.mem_cons_self c xs)
    simp only [List.cons_append, dropThruGt, if_neg hc]
    exact ih r (fun hm => h (List.mem_cons_of_mem c hm))

theorem findSentinelEnd_found : ∀ (u sc v post : List Char),
    (∀ tail, trySentinelAt (sc ++ tail) = some tail) →
    '>' ∉ u → '>' ∉ sc → '>' ∉ v →
    ∃ r, findSentinelEnd (u ++ (sc ++ (v ++ '>' :: post))) = some r ∧
      dropThruGt r = some post := by
  intro u
  induction u with
  | nil =>
    intro sc v post hsc _ hscgt hv
    refine ⟨v ++ '>' :: post, ?_, dropThruGt_skip v post hv⟩
    cases sc with
    | nil => have := hsc []; simp [trySentinelAt, dropLitCI] at this
    | cons c sc' =>
      simp only [List.nil_append, List.cons_append, List.append_eq, findSentinelEnd]
      have := hsc (v ++ '>' :: post)
      simp only [List.cons_append, List.append_eq] at this
      rw [this]
  | cons a u ih =>
    intro sc v post hsc hu hscgt hv
    have ha : a ≠ '>' := fun he => hu (he ▸ List.mem_cons_self a u)
    have hu' : '>' ∉ u := fun hm => hu (List.mem_cons_of_mem a hm)
    cases htry : trySentinelAt (a :: (u ++ (sc ++ (v ++ '>' :: post)))) with
    | some r =>
      obtain ⟨con, hcon, hnogt⟩ := trySentinelAt_consumed htry
      have heq : con ++ r = (a :: (u ++ (sc ++ v))) ++ '>' :: post := by
        rw [← hcon]; simp
      have hxs : '>' ∉ (a :: (u ++ (sc ++ v))) := by
        intro hm
        rcases List.mem_cons.mp hm with he | hm
        · exact ha he.symm
        · rcases List.mem_append.mp hm with hm | hm
          · exact hu' hm
          · rcases List.mem_append.mp hm with hm | hm
            · exact hscgt hm
            · exact hv hm
      obtain ⟨z, hz, hznogt⟩ := split_at_gt con _ post r heq hxs hnogt
      refine ⟨r, ?_, by rw [hz]; exact dropThruGt_skip z post hznogt⟩
      simp only [List.cons_append, List.append_eq, findSentinelEnd, htry]
    | none =>
      obtain ⟨r, hr, hdrop⟩ := ih sc v post hsc hu' hscgt hv
      refine ⟨r, ?_, hdrop⟩
      simp only [List.cons_append, List.append_eq, findSentinelEnd, htry, if_neg ha]
      exact hr

theorem isWs_facts {c : Char} (h : isWs c = true) :
    c ≠ '>' ∧ c.toLower ≠ 'c' ∧ c.toLower ≠ '<' := by
  have hc : c = ' ' ∨ c = '\t' ∨ c = '\n' ∨ c = '\r' ∨ c = '\x0b' ∨ c = '\x0c' := by
    simpa [isWs, or_assoc] using h
  rcases hc with h | h | h | h | h | h <;> subst h <;> decide

theorem tryMetaAt_none_head {c : Char} (cs : List Char) (hc : c.toLower ≠ '<') :
    tryMetaAt (c :: cs) = none := by
  have hsplit : "<meta".data = '<' :: "meta".data := rfl
  have h1 : dropLitCI "<meta".data (c :: cs) = none := by
    rw [hsplit]
    simp only [dropLitCI]
    rw [show '<'.toLower = '<' from rfl, if_neg hc]
  simp [tryMetaAt, h1]

theorem findMetaTag_skip : ∀ (pre r : List Char), (∀ c ∈ pre, c.toLower ≠ '<') →
    findMetaTag (pre ++ r) = findMetaTag r := by
  intro pre
  induction pre with
  | nil => intro r _; rfl
  | cons c pre ih =>
    intro r h
    have hc := h c (List.mem_cons_self c pre)
    simp only [List.cons_append, List.append_eq, findMetaTag, tryMetaAt_none_head _ hc]
    exact ih r fun x hx => h x (List.mem_cons_of_mem c hx)

theorem findMetaTag_here {c : Char} {cs tag : List Char}
    (h : tryMetaAt (c :: cs) = some tag) : findMetaTag (c :: cs) = some tag := by
  simp [findMetaTag, h]

theorem take_sub_len (T post : List Char) :
    (T ++ post).take ((T ++ post).length - post.length) = T := by
  rw [List.length_append, Nat.add_sub_cancel, List.take_left]

theorem tryMetaAt_found (w0 : Char) (ws u sc v post : List Char)
    (hw0 : isWs w0 = true) (hwsAll : ∀ c ∈ ws, isWs c = true)
    (hsc : ∀ tail, trySentinelAt (sc ++ tail) = some tail)
    (hu : '>' ∉ u) (hscgt : '>' ∉ sc) (hv : '>' ∉ v) :
    tryMetaAt ("<meta".data ++ (w0 :: (ws ++ (u ++ (sc ++ (v ++ '>' :: post)))))) =
      some ("<meta".data ++ (w0 :: (ws ++ (u ++ (sc ++ (v ++ ['>'])))))) := by
  have hwsu : '>' ∉ ws ++ u := by
    intro hm
    rcases List.mem_append.mp hm with hm | hm
    · exact (isWs_facts (hwsAll _ hm)).1 rfl
    · exact hu hm
  obtain ⟨r, hr, hdrop⟩ := findSentinelEnd_found (ws ++ u) sc v post hsc hwsu hscgt hv
  have hr2 : findSentinelEnd (ws ++ (u ++ (sc ++ (v ++ '>' :: post)))) = some r := by
    rw [← hr, List.append_assoc]
  have h1 : dropLitCI "<meta".data
      ("<meta".data ++ (w0 :: (ws ++ (u ++ (sc ++ (v ++ '>' :: post)))))) =
      some (w0 :: (ws ++ (u ++ (sc ++ (v ++ '>' :: post))))) := dropLitCI_self _ _
  have hs : "<meta".data ++ (w0 :: (ws ++ (u ++ (sc ++ (v ++ '>' :: post))))) =
      ("<meta".data ++ (w0 :: (ws ++ (u ++ (sc ++ (v ++ ['>'])))))) ++ post := by
    simp
  simp only [tryMetaAt, h1, hw0, if_true, hr2, hdrop]
  rw [hs, take_sub_len]

theorem findMetaTag_found (pre : List Char) (w0 : Char) (ws u sc v post : List Char)
    (hpre : ∀ c ∈ pre, c.toLower ≠ '<')
    (hw0 : isWs w0 = true) (hwsAll : ∀ c ∈ ws, isWs c = true)
    (hsc : ∀ tail, trySentinelAt (sc ++ tail) = some tail)
    (hu : '>' ∉ u) (hscgt : '>' ∉ sc) (hv : '>' ∉ v) :
    findMetaTag (pre ++ ("<meta".data ++ (w0 :: (ws ++ (u ++ (sc ++ (v ++ '>' :: post))))))) =
      some ("<meta".data ++ (w0 :: (ws ++ (u ++ (sc ++ (v ++ ['>'])))))) := by
  rw [findMetaTag_skip pre _ hpre]
  exact findMetaTag_here (tryMetaAt_found w0 ws u sc v post hw0 hwsAll hsc hu hscgt hv)

theorem takeWhile_append_all (p : Char → Bool) : ∀ (xs : List Char) (c : Char) (r : List Char),
    (∀ a ∈ xs, p a = true) → p c = false → (xs ++ c :: r).takeWhile p = xs := by
  intro xs
  induction xs with
  | nil => intro c r _ hc; simp [List.takeWhile_cons, hc]
  | cons a xs ih =>
    intro c r hx hc
    have ha := hx a (List.mem_cons_self a xs)
    simp [List.takeWhile_cons, ha,
      ih c r (fun b hb => hx b (List.mem_cons_of_mem a hb)) hc]

theorem dropWhile_append_all (p : Char → Bool) : ∀ (xs : List Char) (c : Char) (r : List Char),
    (∀ a ∈ xs, p a = true) → p c = false → (xs ++ c :: r).dropWhile p = c :: r := by
  intro xs
  induction xs with
  | nil => intro c r _ hc; simp [List.dropWhile_cons, hc]
  | cons a xs ih =>
    intro c r hx hc
    have ha := hx a (List.mem_cons_self a xs)
    simp [List.dropWhile_cons, ha,
      ih c r (fun b hb => hx b (List.mem_cons_of_mem a hb)) hc]

theorem tryContentAt_none_head {c : Char} (cs : List Char) (hc : c.toLower ≠ 'c') :
    tryContentAt (c :: cs) = none := by
  have hsplit : "content=".data = 'c' :: "ontent=".data := rfl
  have h1 : dropLitCI "content=".data (c :: cs) = none := by
    rw [hsplit]
    simp only [dropLitCI]
    rw [show 'c'.toLower = 'c' from rfl, if_neg hc]
  simp [tryContentAt, h1]

theorem scanContent_skip : ∀ (xs r : List Char), (∀ c ∈ xs, c.toLower ≠ 'c') →
    scanContent (xs ++ r) = scanContent r := by
  intro xs
  induction xs with
  | nil => intro r _; rfl
  | cons c xs ih =>
    intro r h
    have hc := h c (List.mem_cons_self c xs)
    simp only [List.cons_append, List.append_eq, scanContent, tryContentAt_none_head _ hc]
    exact ih r fun x hx => h x (List.mem_cons_of_mem c hx)

/-- The lowercase sentinel text contains the letter `c` (twice), but no
position inside it starts a `content=` match, so the content scan passes
over it — for any tail, by computation. -/
theorem scanContent_skip_sentLow (r : List Char) :
    scanContent ("property=\"descript:transcript\"".data ++ r) = scanContent r := rfl

/-- Same for the uppercase-cased sentinel text. -/
theorem scanContent_skip_sentUp (r : List Char) :
    scanContent ("PROPERTY=\"DESCRIPT:TRANSCRIPT\"".data ++ r) = scanContent r := rfl

theorem tryContentAt_found (cc : List Char) (q1 : Char) (v : List Char) (q2 : Char)
    (rest : List Char)
    (hcc : ∀ tail, dropLitCI "content=".data (cc ++ tail) = some tail)
    (hq1 : q1 = '"' ∨ q1 = '\'') (hv : v ≠ [])
    (hvq : ∀ c ∈ v, ¬(c = '"' ∨ c = '\'')) (hq2 : q2 = '"' ∨ q2 = '\'') :
    tryContentAt (cc ++ (q1 :: (v ++ q2 :: rest))) = some v := by
  have h1 := hcc (q1 :: (v ++ q2 :: rest))
  have h2 : dropQuote (q1 :: (v ++ q2 :: rest)) = some (v ++ q2 :: rest) := by
    simp only [dropQuote, if_pos hq1]
  have hall : ∀ a ∈ v, (decide ¬(a = '"' ∨ a = '\'')) = true := fun a ha => by
    simpa using hvq a ha
  have hq2f : (decide ¬(q2 = '"' ∨ q2 = '\'')) = false := by
    rcases hq2 with h | h <;> subst h <;> decide
  simp only [tryContentAt, h1, h2]
  rw [takeWhile_append_all _ v q2 rest hall hq2f, if_neg hv,
    dropWhile_append_all _ v q2 rest hall hq2f]
  simp [hq2]

theorem scanContent_found (c0 : Char) (cc : List Char) (q1 : Char) (v : List Char)
    (q2 : Char) (rest : List Char)
    (hcc : ∀ tail, dropLitCI "content=".data ((c0 :: cc) ++ tail) = some tail)
    (hq1 : q1 = '"' ∨ q1 = '\'') (hv : v ≠ [])
    (hvq : ∀ c ∈ v, ¬(c = '"' ∨ c = '\'')) (hq2 : q2 = '"' ∨ q2 = '\'') :
    scanContent (c0 :: (cc ++ (q1 :: (v ++ q2 :: rest)))) = some v := by
  have hfound := tryContentAt_found (c0 :: cc) q1 v q2 rest hcc hq1 hv hvq hq2
  rw [List.cons_append] at hfound
  simp only [scanContent, hfound]

theorem scanContent_skip_cons (c : Char) (xs r : List Char)
    (h : ∀ a ∈ c :: xs, a.toLower ≠ 'c') :
    scanContent (c :: (xs ++ r)) = scanContent r := by
  have hs := scanContent_skip (c :: xs) r h
  rwa [List.cons_append] at hs

/-! Variant B scan lemmas. -/

theorem tryMetaTagBAt_none_head {c : Char} (cs : List Char) (hc : c.toLower ≠ '<') :
    tryMetaTagBAt (c :: cs) = none := by
  have hsplit : "<meta".data = '<' :: "meta".data := rfl
  have h1 : dropLitCI "<meta".data (c :: cs) = none := by
    rw [hsplit]
    simp only [dropLitCI]
    rw [show '<'.toLower = '<' from rfl, if_neg hc]
  simp [tryMetaTagBAt, h1]

theorem scanMetaB_skip : ∀ (pre r : List Char), (∀ c ∈ pre, c.toLower ≠ '<') →
    scanMetaB (pre ++ r) = scanMetaB r := by
  intro pre
  induction pre with
  | nil => intro r _; rfl
  | cons c pre ih =>
    intro r h
    have hc := h c (List.mem_cons_self c pre)
    simp only [List.cons_append, List.append_eq, scanMetaB, tryMetaTagBAt_none_head _ hc]
    exact ih r fun x hx => h x (List.mem_cons_of_mem c hx)

theorem dropWsPlus_all (ws : List Char) (c0 : Char) (r : List Char)
    (hne : ws ≠ []) (hall : ∀ c ∈ ws, isWs c = true) (hc0 : isWs c0 = false) :
    dropWsPlus (ws ++ c0 :: r) = some (c0 :: r) := by
  cases ws with
  | nil => exact absurd rfl hne
  | cons w ws' =>
    have hw := hall w (List.mem_cons_self w ws')
    simp only [List.cons_append, dropWsPlus, hw, if_true]
    rw [dropWhile_append_all isWs ws' c0 r
      (fun b hb => hall b (List.mem_cons_of_mem w hb)) hc0]

theorem tryMetaTagBAt_found (mTxt sTxt cTxt : List Char) (s0 c0 : Char)
    (ws1 ws2 v rest : List Char)
    (hm : ∀ tail, dropLitCI "<meta".data (mTxt ++ tail) = some tail)
    (hs : ∀ tail, dropLitCI "property=\"descript:transcript\"".data
      ((s0 :: sTxt) ++ tail) = some tail)
    (hcl : ∀ tail, dropLitCI "content=\"".data ((c0 :: cTxt) ++ tail) = some tail)
    (hs0 : isWs s0 = false) (hc0 : isWs c0 = false)
    (hws1 : ws1 ≠ []) (hws1All : ∀ c ∈ ws1, isWs c = true)
    (hws2 : ws2 ≠ []) (hws2All : ∀ c ∈ ws2, isWs c = true)
    (hv : v ≠ []) (hvq : ∀ c ∈ v, c ≠ '"') :
    tryMetaTagBAt (mTxt ++ (ws1 ++ (s0 :: (sTxt ++ (ws2 ++ (c0 :: (cTxt ++
      (v ++ '"' :: rest)))))))) = some v := by
  have h1 := hm (ws1 ++ (s0 :: (sTxt ++ (ws2 ++ (c0 :: (cTxt ++ (v ++ '"' :: rest)))))))
  have h2 := dropWsPlus_all ws1 s0 (sTxt ++ (ws2 ++ (c0 :: (cTxt ++ (v ++ '"' :: rest)))))
    hws1 hws1All hs0
  have h3 := hs (ws2 ++ (c0 :: (cTxt ++ (v ++ '"' :: rest))))
  simp only [List.cons_append, List.append_eq] at h3
  have h4 := dropWsPlus_all ws2 c0 (cTxt ++ (v ++ '"' :: rest)) hws2 hws2All hc0
  have h5 := hcl (v ++ '"' :: rest)
  simp only [List.cons_append, List.append_eq] at h5
  have hall : ∀ a ∈ v, (decide ¬(a = '"')) = true := fun a ha => by
    simpa using hvq a ha
  have hqf : (decide ¬(('"' : Char) = '"')) = false := by decide
  simp only [tryMetaTagBAt, h1, h2, h3, h4, h5]
  rw [takeWhile_append_all _ v '"' rest hall hqf, if_neg hv,
    dropWhile_append_all _ v '"' rest hall hqf]
  simp

theorem scanMetaB_here {c : Char} {cs v : List Char}
    (h : tryMetaTagBAt (c :: cs) = some v) : scanMetaB (c :: cs) = some v := by
  simp [scanMetaB, h]

/-- Variant A, attribute order `property` then `content`: the extractor returns
the exact content value.  The hygiene hypotheses keep the pattern matcher from
being fooled (an accepted limitation of the source regexes): the preceding
document contains no `<`, interleaved attribute text contains no `>` and — left
of the content attribute — no letter `c` (which could start a decoy
`content=`), and the value itself contains no quote or `>`. -/
theorem extractA_order1 (pre ws a1 mid a2 val post : String)
    (hpre : ∀ c ∈ pre.data, c.toLower ≠ '<')
    (hwsne : ws.data ≠ []) (hwsAll : ∀ c ∈ ws.data, isWs c = true)
    (ha1 : ∀ c ∈ a1.data, c.toLower ≠ 'c' ∧ c ≠ '>')
    (hmid : ∀ c ∈ mid.data, c.toLower ≠ 'c' ∧ c ≠ '>')
    (ha2 : ∀ c ∈ a2.data, c ≠ '>')
    (hvne : val.data ≠ []) (hval : ∀ c ∈ val.data, c ≠ '"' ∧ c ≠ '\'' ∧ c ≠ '>') :
    extractTranscriptJsonUrlFromHtml
      (pre ++ "<meta" ++ ws ++ a1 ++ "property=\"descript:transcript\"" ++ mid ++
        "content=\"" ++ val ++ "\"" ++ a2 ++ ">" ++ post) = some val := by
  cases hws : ws.data with
  | nil => exact absurd hws hwsne
  | cons w0 ws2 =>
    have hwsAll' : ∀ c ∈ w0 :: ws2, isWs c = true := hws ▸ hwsAll
    have hw0 : isWs w0 = true := hwsAll' w0 (List.mem_cons_self w0 ws2)
    have hws2All : ∀ c ∈ ws2, isWs c = true :=
      fun c hc => hwsAll' c (List.mem_cons_of_mem w0 hc)
    have hUgt : '>' ∉ a1.data := fun hm => (ha1 _ hm).2 rfl
    have hVgt : '>' ∉ mid.data ++ ("content=".data ++
        ('"' :: (val.data ++ ('"' :: a2.data)))) := by
      intro hm
      rcases List.mem_append.mp hm with h | h
      · exact (hmid _ h).2 rfl
      · rcases List.mem_append.mp h with h | h
        · exact absurd h (by decide)
        · rcases List.mem_cons.mp h with h | h
          · exact absurd h (by decide)
          · rcases List.mem_append.mp h with h | h
            · exact (hval _ h).2.2 rfl
            · rcases List.mem_cons.mp h with h | h
              · exact absurd h (by decide)
              · exact (ha2 _ h) rfl
    have hfind := findMetaTag_found pre.data w0 ws2 a1.data
      "property=\"descript:transcript\"".data
      (mid.data ++ ("content=".data ++ ('"' :: (val.data ++ ('"' :: a2.data)))))
      post.data hpre hw0 hws2All (fun _ => rfl) hUgt (by decide) hVgt
    have harg : (pre ++ "<meta" ++ ws ++ a1 ++ "property=\"descript:transcript\"" ++ mid ++
        "content=\"" ++ val ++ "\"" ++ a2 ++ ">" ++ post).data =
        pre.data ++ ("<meta".data ++ (w0 :: (ws2 ++ (a1.data ++
          ("property=\"descript:transcript\"".data ++
            ((mid.data ++ ("content=".data ++ ('"' :: (val.data ++ ('"' :: a2.data))))) ++
              '>' :: post.data)))))) := by
      simp only [String.data_append, hws]
      simp [List.append_assoc, List.cons_append,
        show ("content=\"".data : List Char) = "content=".data ++ ['"'] from rfl,
        show ("\"".data : List Char) = ['"'] from rfl,
        show (">".data : List Char) = ['>'] from rfl]
    have hscan : scanContent ("<meta".data ++ (w0 :: (ws2 ++ (a1.data ++
        ("property=\"descript:transcript\"".data ++
          ((mid.data ++ ("content=".data ++ ('"' :: (val.data ++ ('"' :: a2.data))))) ++
            ['>'])))))) = some val.data := by
      rw [scanContent_skip "<meta".data _ (by decide),
        scanContent_skip_cons w0 ws2 _ (fun c hc => (isWs_facts (hwsAll' c hc)).2.1),
        scanContent_skip a1.data _ (fun c hc => (ha1 c hc).1),
        scanContent_skip_sentLow]
      have hV2 : (mid.data ++ ("content=".data ++ ('"' :: (val.data ++ ('"' :: a2.data))))) ++
          ['>'] = mid.data ++ ("content=".data ++
            ('"' :: (val.data ++ ('"' :: (a2.data ++ ['>']))))) := by
        simp [List.append_assoc]
      rw [hV2, scanContent_skip mid.data _ (fun c hc => (hmid c hc).1)]
      exact scanContent_found 'c' "ontent=".data '"' val.data '"'
        (a2.data ++ ['>']) (fun tail => dropLitCI_self "content=".data tail)
        (Or.inl rfl) hvne
        (fun c hc => fun hor => hor.elim (hval c hc).1 (hval c hc).2.1)
        (Or.inl rfl)
    simp only [extractTranscriptJsonUrlFromHtml, harg, hfind, hscan]

theorem scanContent_cons_skip {c : Char} (r : List Char) (hc : c.toLower ≠ 'c') :
    scanContent (c :: r) = scanContent r := by
  simp only [scanContent, tryContentAt_none_head _ hc]

/-- Variant A, attribute order `content` then `property`: the extractor still
returns the exact content value. -/
theorem extractA_order2 (pre ws b1 mid b3 val post : String)
    (hpre : ∀ c ∈ pre.data, c.toLower ≠ '<')
    (hwsne : ws.data ≠ []) (hwsAll : ∀ c ∈ ws.data, isWs c = true)
    (hb1 : ∀ c ∈ b1.data, c.toLower ≠ 'c' ∧ c ≠ '>')
    (hmid : ∀ c ∈ mid.data, c ≠ '>')
    (hb3 : ∀ c ∈ b3.data, c ≠ '>')
    (hvne : val.data ≠ []) (hval : ∀ c ∈ val.data, c ≠ '"' ∧ c ≠ '\'' ∧ c ≠ '>') :
    extractTranscriptJsonUrlFromHtml
      (pre ++ "<meta" ++ ws ++ b1 ++ "content=\"" ++ val ++ "\"" ++ mid ++
        "property=\"descript:transcript\"" ++ b3 ++ ">" ++ post) = some val := by
  cases hws : ws.data with
  | nil => exact absurd hws hwsne
  | cons w0 ws2 =>
    have hwsAll' : ∀ c ∈ w0 :: ws2, isWs c = true := hws ▸ hwsAll
    have hw0 : isWs w0 = true := hwsAll' w0 (List.mem_cons_self w0 ws2)
    have hws2All : ∀ c ∈ ws2, isWs c = true :=
      fun c hc => hwsAll' c (List.mem_cons_of_mem w0 hc)
    have hUgt : '>' ∉ b1.data ++ ("content=".data ++
        ('"' :: (val.data ++ ('"' :: mid.data)))) := by
      intro hm
      rcases List.mem_append.mp hm with h | h
      · exact (hb1 _ h).2 rfl
      · rcases List.mem_append.mp h with h | h
        · exact absurd h (by decide)
        · rcases List.mem_cons.mp h with h | h
          · exact absurd h (by decide)
          · rcases List.mem_append.mp h with h | h
            · exact (hval _ h).2.2 rfl
            · rcases List.mem_cons.mp h with h | h
              · exact absurd h (by decide)
              · exact (hmid _ h) rfl
    have hVgt : '>' ∉ b3.data := fun hm => (hb3 _ hm) rfl
    have hfind := findMetaTag_found pre.data w0 ws2
      (b1.data ++ ("content=".data ++ ('"' :: (val.data ++ ('"' :: mid.data)))))
      "property=\"descript:transcript\"".data b3.data
      post.data hpre hw0 hws2All (fun _ => rfl) hUgt (by decide) hVgt
    have harg : (pre ++ "<meta" ++ ws ++ b1 ++ "content=\"" ++ val ++ "\"" ++ mid ++
        "property=\"descript:transcript\"" ++ b3 ++ ">" ++ post).data =
        pre.data ++ ("<meta".data ++ (w0 :: (ws2 ++
          ((b1.data ++ ("content=".data ++ ('"' :: (val.data ++ ('"' :: mid.data))))) ++
            ("property=\"descript:transcript\"".data ++
              (b3.data ++ '>' :: post.data)))))) := by
      simp only [String.data_append, hws]
      simp [List.append_assoc, List.cons_append,
        show ("content=\"".data : List Char) = "content=".data ++ ['"'] from rfl,
        show ("\"".data : List Char) = ['"'] from rfl,
        show (">".data : List Char) = ['>'] from rfl]
    have hscan : scanContent ("<meta".data ++ (w0 :: (ws2 ++
        ((b1.data ++ ("content=".data ++ ('"' :: (val.data ++ ('"' :: mid.data))))) ++
          ("property=\"descript:transcript\"".data ++ (b3.data ++ ['>'])))))) =
        some val.data := by
      rw [scanContent_skip "<meta".data _ (by decide),
        scanContent_skip_cons w0 ws2 _ (fun c hc => (isWs_facts (hwsAll' c hc)).2.1),
        List.append_assoc b1.data,
        scanContent_skip b1.data _ (fun c hc => (hb1 c hc).1)]
      have hN : ("content=".data ++ ('"' :: (val.data ++ ('"' :: mid.data)))) ++
          ("property=\"descript:transcript\"".data ++ (b3.data ++ ['>'])) =
          "content=".data ++ ('"' :: (val.data ++ ('"' :: (mid.data ++
            ("property=\"descript:transcript\"".data ++ (b3.data ++ ['>'])))))) := by
        simp [List.append_assoc]
      rw [hN]
      exact scanContent_found 'c' "ontent=".data '"' val.data '"'
        (mid.data ++ ("property=\"descript:transcript\"".data ++ (b3.data ++ ['>'])))
        (fun tail => dropLitCI_self "content=".data tail)
        (Or.inl rfl) hvne
        (fun c hc => fun hor => hor.elim (hval c hc).1 (hval c hc).2.1)
        (Or.inl rfl)
    simp only [extractTranscriptJsonUrlFromHtml, harg, hfind, hscan]

/-- Variant B: the strict-order tag — `property` then `content`, double-quoted,
separated by whitespace only — yields the exact content value. -/
theorem extractB_strict (pre ws1 ws2 val post : String)
    (hpre : ∀ c ∈ pre.data, c.toLower ≠ '<')
    (hws1ne : ws1.data ≠ []) (hws1All : ∀ c ∈ ws1.data, isWs c = true)
    (hws2ne : ws2.data ≠ []) (hws2All : ∀ c ∈ ws2.data, isWs c = true)
    (hvne : val.data ≠ []) (hval : ∀ c ∈ val.data, c ≠ '"') :
    getTranscriptUrlFromHtmlB
      (pre ++ "<meta" ++ ws1 ++ "property=\"descript:transcript\"" ++ ws2 ++
        "content=\"" ++ val ++ "\"" ++ post) = some val := by
  have hfound : tryMetaTagBAt ('<' :: ("meta".data ++ (ws1.data ++
      ('p' :: ("roperty=\"descript:transcript\"".data ++ (ws2.data ++
        ('c' :: ("ontent=\"".data ++ (val.data ++ '"' :: post.data))))))))) =
      some val.data :=
    tryMetaTagBAt_found "<meta".data "roperty=\"descript:transcript\"".data
      "ontent=\"".data 'p' 'c' ws1.data ws2.data val.data post.data
      (fun tail => dropLitCI_self "<meta".data tail)
      (fun tail => dropLitCI_self "property=\"descript:transcript\"".data tail)
      (fun tail => dropLitCI_self "content=\"".data tail)
      (by decide) (by decide) hws1ne hws1All hws2ne hws2All hvne hval
  have hB := scanMetaB_here hfound
  have harg : (pre ++ "<meta" ++ ws1 ++ "property=\"descript:transcript\"" ++ ws2 ++
      "content=\"" ++ val ++ "\"" ++ post).data =
      pre.data ++ ('<' :: ("meta".data ++ (ws1.data ++
        ('p' :: ("roperty=\"descript:transcript\"".data ++ (ws2.data ++
          ('c' :: ("ontent=\"".data ++ (val.data ++ '"' :: post.data))))))))) := by
    simp only [String.data_append]
    simp [List.append_assoc, List.cons_append,
      show ("<meta".data : List Char) = '<' :: "meta".data from rfl,
      show ("property=\"descript:transcript\"".data : List Char) =
        'p' :: "roperty=\"descript:transcript\"".data from rfl,
      show ("content=\"".data : List Char) = 'c' :: "ontent=\"".data from rfl,
      show ("\"".data : List Char) = ['"'] from rfl]
  simp only [getTranscriptUrlFromHtmlB, harg, scanMetaB_skip pre.data _ hpre, hB,
    Option.map]

/-! ## C2 -/

/-- C2 counterexample: with the attributes in the order `content` then
`property`, Variant A's extractor returns the content value but Variant B's
returns not-found — its regex requires `property` before `content`. -/
theorem C2_counterexample :
    extractTranscriptJsonUrlFromHtml
        "<meta content=\"https://x/t.json\" property=\"descript:transcript\">" =
      some "https://x/t.json" ∧
    getTranscriptUrlFromHtmlB
        "<meta content=\"https://x/t.json\" property=\"descript:transcript\">" =
      none :=
  ⟨rfl, rfl⟩

/-- C2 (amended): Variant A's extractor returns the exact content value for the
sentinel tag with attributes in either order, arbitrary whitespace and benign
interleaved attributes (no `>`, no decoy `content=` left of the real content
attribute, quote-free value — the matcher can be fooled otherwise, an accepted
limitation).  Variant B's extractor requires exactly `property` then `content`,
double-quoted and separated by whitespace only; it returns the exact content
value on that form and not-found on the reversed order (counterexample). -/
theorem C2_amended :
    (∀ (pre ws a1 mid a2 val post : String),
      (∀ c ∈ pre.data, c.toLower ≠ '<') →
      ws.data ≠ [] → (∀ c ∈ ws.data, isWs c = true) →
      (∀ c ∈ a1.data, c.toLower ≠ 'c' ∧ c ≠ '>') →
      (∀ c ∈ mid.data, c.toLower ≠ 'c' ∧ c ≠ '>') →
      (∀ c ∈ a2.data, c ≠ '>') →
      val.data ≠ [] → (∀ c ∈ val.data, c ≠ '"' ∧ c ≠ '\'' ∧ c ≠ '>') →
      extractTranscriptJsonUrlFromHtml
        (pre ++ "<meta" ++ ws ++ a1 ++ "property=\"descript:transcript\"" ++ mid ++
          "content=\"" ++ val ++ "\"" ++ a2 ++ ">" ++ post) = some val) ∧
    (∀ (pre ws b1 mid b3 val post : String),
      (∀ c ∈ pre.data, c.toLower ≠ '<') →
      ws.data ≠ [] → (∀ c ∈ ws.data, isWs c = true) →
      (∀ c ∈ b1.data, c.toLower ≠ 'c' ∧ c ≠ '>') →
      (∀ c ∈ mid.data, c ≠ '>') →
      (∀ c ∈ b3.data, c ≠ '>') →
      val.data ≠ [] → (∀ c ∈ val.data, c ≠ '"' ∧ c ≠ '\'' ∧ c ≠ '>') →
      extractTranscriptJsonUrlFromHtml
        (pre ++ "<meta" ++ ws ++ b1 ++ "content=\"" ++ val ++ "\"" ++ mid ++
          "property=\"descript:transcript\"" ++ b3 ++ ">" ++ post) = some val) ∧
    (∀ (pre ws1 ws2 val post : String),
      (∀ c ∈ pre.data, c.toLower ≠ '<') →
      ws1.data ≠ [] → (∀ c ∈ ws1.data, isWs c = true) →
      ws2.data ≠ [] → (∀ c ∈ ws2.data, isWs c = true) →
      val.data ≠ [] → (∀ c ∈ val.data, c ≠ '"') →
      getTranscriptUrlFromHtmlB
        (pre ++ "<meta" ++ ws1 ++ "property=\"descript:transcript\"" ++ ws2 ++
          "content=\"" ++ val ++ "\"" ++ post) = some val) :=
  ⟨extractA_order1, extractA_order2, extractB_strict⟩

theorem C2_amended_witness :
    extractTranscriptJsonUrlFromHtml
        ("x! " ++ "<meta" ++ " \n " ++ "data-id=7 " ++
          "property=\"descript:transcript\"" ++ " " ++ "content=\"" ++
          "https://api.descript.example/t.json" ++ "\"" ++ " id=9" ++ ">" ++
          "<body>") = some "https://api.descript.example/t.json" ∧
    extractTranscriptJsonUrlFromHtml
        ("" ++ "<meta" ++ " " ++ "" ++ "content=\"" ++ "https://t2.example/x" ++
          "\"" ++ " " ++ "property=\"descript:transcript\"" ++ " data-x=1" ++
          ">" ++ "") = some "https://t2.example/x" ∧
    getTranscriptUrlFromHtmlB
        ("yy " ++ "<meta" ++ " " ++ "property=\"descript:transcript\"" ++ "\n " ++
          "content=\"" ++ "https://t3.example/y" ++ "\"" ++ "/> rest") =
      some "https://t3.example/y" :=
  ⟨C2_amended.1 "x! " " \n " "data-id=7 " " " " id=9"
      "https://api.descript.example/t.json" "<body>"
      (by decide) (by decide) (by decide) (by decide) (by decide) (by decide)
      (by decide) (by decide),
    C2_amended.2.1 "" " " "" " " " data-x=1" "https://t2.example/x" ""
      (by decide) (by decide) (by decide) (by decide) (by decide) (by decide)
      (by decide) (by decide),
    C2_amended.2.2 "yy " " " "\n " "https://t3.example/y" "/> rest"
      (by decide) (by decide) (by decide) (by decide) (by decide) (by decide)
      (by decide)⟩

/-! ## C3 -/

/-- C3 counterexample: both regexes carry the `/i` flag over the whole pattern,
so a differently-cased sentinel value still matches — the extractors return the
content value instead of the claimed not-found result. -/
theorem C3_counterexample :
    extractTranscriptJsonUrlFromHtml
        "<meta property=\"DESCRIPT:TRANSCRIPT\" content=\"u\">" = some "u" ∧
    getTranscriptUrlFromHtmlB
        "<meta property=\"DESCRIPT:TRANSCRIPT\" content=\"u\">" = some "u" :=
  ⟨rfl, rfl⟩

/-- C3 (amended): in both variants, matching is case-insensitive for the tag
name, the attribute names *and* the sentinel value: a tag whose sentinel value
(and attribute names) are differently cased still yields the exact content
value, for every quote-free, `>`-free, non-empty value. -/
theorem C3_amended (val : String) (hvne : val.data ≠ [])
    (hval : ∀ c ∈ val.data, c ≠ '"' ∧ c ≠ '\'' ∧ c ≠ '>') :
    extractTranscriptJsonUrlFromHtml
      ("<meta PROPERTY=\"DESCRIPT:TRANSCRIPT\" CONTENT=\"" ++ val ++ "\">") =
      some val ∧
    getTranscriptUrlFromHtmlB
      ("<meta PROPERTY=\"DESCRIPT:TRANSCRIPT\" CONTENT=\"" ++ val ++ "\">") =
      some val := by
  constructor
  · have hVgt : '>' ∉ (' ' :: ("CONTENT=".data ++ ('"' :: (val.data ++ ['"'])))) := by
      intro hm
      rcases List.mem_cons.mp hm with h | h
      · exact absurd h (by decide)
      · rcases List.mem_append.mp h with h | h
        · exact absurd h (by decide)
        · rcases List.mem_cons.mp h with h | h
          · exact absurd h (by decide)
          · rcases List.mem_append.mp h with h | h
            · exact (hval _ h).2.2 rfl
            · exact absurd h (by decide)
    have hfind : findMetaTag ("<meta".data ++ (' ' ::
        ("PROPERTY=\"DESCRIPT:TRANSCRIPT\"".data ++
          ((' ' :: ("CONTENT=".data ++ ('"' :: (val.data ++ ['"'])))) ++
            '>' :: ([] : List Char))))) =
        some ("<meta".data ++ (' ' ::
          ("PROPERTY=\"DESCRIPT:TRANSCRIPT\"".data ++
            ((' ' :: ("CONTENT=".data ++ ('"' :: (val.data ++ ['"'])))) ++ ['>'])))) := by
      exact findMetaTag_found [] ' ' [] []
        "PROPERTY=\"DESCRIPT:TRANSCRIPT\"".data
        (' ' :: ("CONTENT=".data ++ ('"' :: (val.data ++ ['"'])))) []
        (by decide) (by decide) (by decide) (fun _ => rfl) (by decide) (by decide)
        hVgt
    have harg : ("<meta PROPERTY=\"DESCRIPT:TRANSCRIPT\" CONTENT=\"" ++ val ++
        "\">").data = "<meta".data ++ (' ' ::
          ("PROPERTY=\"DESCRIPT:TRANSCRIPT\"".data ++
            ((' ' :: ("CONTENT=".data ++ ('"' :: (val.data ++ ['"'])))) ++
              '>' :: ([] : List Char)))) := by
      simp only [String.data_append]
      simp [List.append_assoc, List.cons_append,
        show ("<meta PROPERTY=\"DESCRIPT:TRANSCRIPT\" CONTENT=\"".data : List Char) =
          "<meta".data ++ (' ' :: ("PROPERTY=\"DESCRIPT:TRANSCRIPT\"".data ++
            (' ' :: ("CONTENT=".data ++ ['"'])))) from rfl,
        show ("\">".data : List Char) = '"' :: ['>'] from rfl]
    have hscan : scanContent ("<meta".data ++ (' ' ::
        ("PROPERTY=\"DESCRIPT:TRANSCRIPT\"".data ++
          ((' ' :: ("CONTENT=".data ++ ('"' :: (val.data ++ ['"'])))) ++ ['>'])))) =
        some val.data := by
      rw [scanContent_skip "<meta".data _ (by decide),
        scanContent_cons_skip _ (by decide), scanContent_skip_sentUp,
        List.cons_append, scanContent_cons_skip _ (by decide)]
      have hN : ("CONTENT=".data ++ ('"' :: (val.data ++ ['"']))) ++ ['>'] =
          "CONTENT=".data ++ ('"' :: (val.data ++ ('"' :: ['>']))) := by
        simp [List.append_assoc]
      rw [hN]
      exact scanContent_found 'C' "ONTENT=".data '"' val.data '"' ['>']
        (fun _ => rfl) (Or.inl rfl) hvne
        (fun c hc => fun hor => hor.elim (hval c hc).1 (hval c hc).2.1)
        (Or.inl rfl)
    simp only [extractTranscriptJsonUrlFromHtml, harg, hfind, hscan]
  · have hfoundB : tryMetaTagBAt ('<' :: ("meta".data ++ ([' '] ++
        ('P' :: ("ROPERTY=\"DESCRIPT:TRANSCRIPT\"".data ++ ([' '] ++
          ('C' :: ("ONTENT=\"".data ++ (val.data ++ '"' :: ['>']))))))))) =
        some val.data := by
      exact tryMetaTagBAt_found "<meta".data "ROPERTY=\"DESCRIPT:TRANSCRIPT\"".data
        "ONTENT=\"".data 'P' 'C' [' '] [' '] val.data ['>']
        (fun tail => dropLitCI_self "<meta".data tail)
        (fun _ => rfl) (fun _ => rfl)
        (by decide) (by decide) (by decide) (by decide) (by decide) (by decide)
        hvne (fun c hc => (hval c hc).1)
    have hB2 := scanMetaB_here hfoundB
    have hargB : ("<meta PROPERTY=\"DESCRIPT:TRANSCRIPT\" CONTENT=\"" ++ val ++
        "\">").data = '<' :: ("meta".data ++ ([' '] ++
          ('P' :: ("ROPERTY=\"DESCRIPT:TRANSCRIPT\"".data ++ ([' '] ++
            ('C' :: ("ONTENT=\"".data ++ (val.data ++ '"' :: ['>'])))))))) := by
      simp only [String.data_append]
      simp [List.append_assoc, List.cons_append,
        show ("<meta PROPERTY=\"DESCRIPT:TRANSCRIPT\" CONTENT=\"".data : List Char) =
          '<' :: ("meta".data ++ (' ' :: ('P' ::
            ("ROPERTY=\"DESCRIPT:TRANSCRIPT\"".data ++ (' ' :: ('C' ::
              "ONTENT=\"".data)))))) from rfl,
        show ("\">".data : List Char) = '"' :: ['>'] from rfl]
    simp only [getTranscriptUrlFromHtmlB, hargB, hB2, Option.map]

theorem C3_amended_witness :
    extractTranscriptJsonUrlFromHtml
        ("<meta PROPERTY=\"DESCRIPT:TRANSCRIPT\" CONTENT=\"" ++
          "https://u.example/j" ++ "\">") = some "https://u.example/j" ∧
    getTranscriptUrlFromHtmlB
        ("<meta PROPERTY=\"DESCRIPT:TRANSCRIPT\" CONTENT=\"" ++
          "https://u.example/j" ++ "\">") = some "https://u.example/j" :=
  C3_amended "https://u.example/j" (by decide) (by decide)
